import Mathlib

/-!
Verification of the root dispatcher of the seqkit command-line tool
(`src/seqkit/cmd/root.go`): the default thread-count resolution, the
top-level execute/error/exit contract, the registered help groups, and
the subcommand-listing logic of the usage template.
-/

namespace SeqkitRoot

/-! ## ConfigResolver: default thread count (root.go lines 113-126)

The Go code reads `runtime.NumCPU()`, caps it at 4, optionally overrides
it with the `SEQKIT_THREADS` environment variable parsed by
`strconv.Atoi`, and falls back to the uncapped CPU count when the result
is below 1. We embed `strconv.Atoi` (base 10, 64-bit int) as
`goAtoi : String → Option Int`: an optional leading sign, one or more
ASCII digits, value within the signed 64-bit range; anything else is a
parse error (`none`). -/

/-- Accumulate the base-10 value of a digit list; `none` on any non-digit. -/
def digitsValAux : Nat → List Char → Option Nat
  | acc, [] => some acc
  | acc, c :: cs =>
      if c.isDigit then digitsValAux (acc * 10 + (c.toNat - ('0').toNat)) cs
      else none

/-- Embedding of Go `strconv.Atoi(s)` (base 10, bit size of `int` = 64):
optional leading `+` or `-`, then one or more ASCII digits, and the value
must fit a signed 64-bit integer; every other input is an error (`none`).
Out-of-range numerals return a range error in Go, which the caller treats
the same as any other parse failure. -/
def goAtoi (s : String) : Option Int :=
  match s.data with
  | [] => none
  | c :: cs =>
      let p : Bool × List Char :=
        if c = '+' then (false, cs)
        else if c = '-' then (true, cs)
        else (false, c :: cs)
      match p.2 with
      | [] => none
      | _ =>
          match digitsValAux 0 p.2 with
          | none => none
          | some m =>
              if p.1 then
                if (m : Int) ≤ 2 ^ 63 then some (-(m : Int)) else none
              else
                if (m : Int) ≤ 2 ^ 63 - 1 then some (m : Int) else none

/-- Embedding of root.go lines 113-126 (inside `init`): compute the
default value of the `threads` flag from the host CPU count and the
`SEQKIT_THREADS` environment variable.

```go
defaultThreads := runtime.NumCPU()
if defaultThreads > 4 { defaultThreads = 4 }
envThreads := os.Getenv("SEQKIT_THREADS")
if envThreads != "" {
    t, err := strconv.Atoi(envThreads)
    if err == nil { defaultThreads = t }
}
if defaultThreads < 1 { defaultThreads = runtime.NumCPU() }
```
-/
def resolveDefaultThreads (hostCPUCount : Int) (envValue : String) : Int :=
  let d0 : Int := if hostCPUCount > 4 then 4 else hostCPUCount
  let d1 : Int :=
    if envValue ≠ "" then
      match goAtoi envValue with
      | some t => t
      | none => d0
    else d0
  if d1 < 1 then hostCPUCount else d1

/-! ## Entrypoint: Execute (root.go lines 70-75)

```go
func Execute() {
    if err := RootCmd.Execute(); err != nil {
        fmt.Println(err)
        os.Exit(-1)
    }
}
```

`RootCmd.Execute()` (argv parsing plus the matched command's callback) is
abstracted as its result, `Except String Unit`. `fmt.Println` writes to
standard output. `os.Exit(-1)` terminates the process with the numeric
value `-1`; POSIX wait status truncates it to the unsigned byte `255`.
On success the Go function returns and the process later exits with 0. -/

/-- Observable outcome of one top-level invocation: lines printed to
standard output, lines printed to standard error, and the numeric value
passed to process termination. -/
structure ExecOutcome where
  stdout : List String
  stderr : List String
  exitValue : Int
deriving DecidableEq, Repr

/-- Embedding of `Execute` (root.go lines 70-75), parameterized by the
result of `RootCmd.Execute()`. -/
def Execute (result : Except String Unit) : ExecOutcome :=
  match result with
  | .error err => ⟨[err], [], -1⟩
  | .ok _ => ⟨[], [], 0⟩

/-- The exit status the host observes: the numeric exit value truncated
to an unsigned byte. -/
def observedExitStatus (o : ExecOutcome) : Int :=
  o.exitValue % 256

/-! ## UsageRenderer: the subcommand listing of the usage template
(root.go lines 145-176)

The template set on the root command (and inherited by every node) lists
subcommands as follows:

```
{{if .HasAvailableSubCommands}}{{$cmds := .Commands}}{{if eq (len .Groups) 0}}
Available Commands:{{range $cmds}}{{if (or .IsAvailableCommand (eq .Name "help"))}}
  {{rpad .Name .NamePadding }} {{.Short}}{{end}}{{end}}{{else}}{{range $group := .Groups}}
{{.Title}}{{range $cmds}}{{if (and (eq .GroupID $group.ID) (or .IsAvailableCommand (eq .Name "help")))}}
  {{rpad .Name .NamePadding }} {{.Short}}{{end}}{{end}}{{end}}{{if not .AllChildCommandsHaveGroup}}
Additional Commands:{{range $cmds}}{{if (and (eq .GroupID "") (or .IsAvailableCommand (eq .Name "help")))}}
  {{rpad .Name .NamePadding }} {{.Short}}{{end}}{{end}}{{end}}{{end}}{{end}}
```

We embed this logic as a function from a command node to the list of
emitted sections (heading plus the children it lists); the remaining
string production (`rpad`, `.Short`) is presentation only. The accessors
the template calls (`.Groups`, `.IsAvailableCommand`,
`.HasAvailableSubCommands`, `.AllChildCommandsHaveGroup`) belong to the
external cobra library; they are modelled below from cobra's documented
semantics, which the spec describes. -/

/-- A help group registered on a command: identifier and display title
(cobra `Group`). -/
structure Group where
  ID : String
  Title : String
deriving DecidableEq, Repr

/-- A direct child command of a node, with the attributes the usage
template's listing logic reads. `RunnableOrHasSubs` abstracts cobra's
`c.Runnable() || c.HasAvailableSubCommands()`; `IsHelpOfParent` marks the
parent's designated help command (compared by identity in cobra). -/
structure ChildCmd where
  Name : String
  Short : String
  GroupID : String
  Hidden : Bool
  Deprecated : Bool
  RunnableOrHasSubs : Bool
  IsHelpOfParent : Bool
deriving DecidableEq, Repr

/-- Modelled from the spec: cobra's `Command.IsAvailableCommand` — a
command is available when it is not deprecated, not hidden, not the
parent's designated help command, and is runnable or has available
subcommands. -/
def ChildCmd.IsAvailableCommand (c : ChildCmd) : Bool :=
  !c.Deprecated && !c.Hidden && !c.IsHelpOfParent && c.RunnableOrHasSubs

/-- A command node as seen by the usage template: its registered groups
and its direct children. -/
structure CmdNode where
  Groups : List Group
  Commands : List ChildCmd
deriving DecidableEq, Repr

/-- Modelled from the spec: cobra's `Command.HasAvailableSubCommands` —
true when some direct child is an available command. -/
def CmdNode.HasAvailableSubCommands (n : CmdNode) : Bool :=
  n.Commands.any ChildCmd.IsAvailableCommand

/-- Modelled from the spec: cobra's `Command.AllChildCommandsHaveGroup` —
true when no direct child that is available (or is the designated help
command) has an empty group id. -/
def CmdNode.AllChildCommandsHaveGroup (n : CmdNode) : Bool :=
  n.Commands.all fun c => !((c.IsAvailableCommand || c.IsHelpOfParent) && c.GroupID == "")

/-- The per-entry filter of every listing in the template:
`(or .IsAvailableCommand (eq .Name "help"))`. -/
def listedInSection (c : ChildCmd) : Bool :=
  c.IsAvailableCommand || c.Name == "help"

/-- One emitted section of the subcommand listing: its heading and the
children whose name/short text it prints. -/
structure HelpSection where
  title : String
  entries : List ChildCmd
deriving DecidableEq, Repr

/-- The flat `Available Commands:` section of the template. -/
def flatSection (n : CmdNode) : HelpSection :=
  ⟨"Available Commands:", n.Commands.filter listedInSection⟩

/-- The section the template emits for one registered group: heading
`{{.Title}}`, entries filtered by
`(and (eq .GroupID $group.ID) (or .IsAvailableCommand (eq .Name "help")))`. -/
def groupSection (n : CmdNode) (g : Group) : HelpSection :=
  ⟨g.Title, n.Commands.filter fun c => c.GroupID == g.ID && listedInSection c⟩

/-- The trailing `Additional Commands:` section: entries filtered by
`(and (eq .GroupID "") (or .IsAvailableCommand (eq .Name "help")))`. -/
def additionalSection (n : CmdNode) : HelpSection :=
  ⟨"Additional Commands:", n.Commands.filter fun c => c.GroupID == "" && listedInSection c⟩

/-- Embedding of the template's subcommand listing (root.go lines
154-163): nothing without an available subcommand; a flat
`Available Commands:` section when no groups are registered
(`eq (len .Groups) 0`); otherwise one section per registered group in
registration order, then `Additional Commands:` exactly when
`not .AllChildCommandsHaveGroup`. -/
def commandSections (n : CmdNode) : List HelpSection :=
  if n.HasAvailableSubCommands then
    if n.Groups.length == 0 then
      [flatSection n]
    else
      n.Groups.map (groupSection n) ++
        (if !n.AllChildCommandsHaveGroup then [additionalSection n] else [])
  else []

/-- The subcommand listing as claim C5 words it: flat exactly when *no
group has any member among the node's direct children*, and the
`Additional Commands:` section emitted exactly when *some child has no
group*. Written from the claim for comparison with `commandSections`. -/
def commandSectionsClaimed (n : CmdNode) : List HelpSection :=
  if n.HasAvailableSubCommands then
    if n.Groups.all fun g => n.Commands.all fun c => !(c.GroupID == g.ID) then
      [flatSection n]
    else
      n.Groups.map (groupSection n) ++
        (if n.Commands.any fun c => c.GroupID == "" then [additionalSection n] else [])
  else []

/-- The eight groups registered on the root command (root.go lines
78-111), in registration order. -/
def rootGroups : List Group :=
  [⟨"basic", "Commands for Basic Operation:"⟩,
   ⟨"format", "Commands for Format Conversion:"⟩,
   ⟨"search", "Commands for Searching:"⟩,
   ⟨"set", "Commands for Set Operation:"⟩,
   ⟨"edit", "Commands for Edit:"⟩,
   ⟨"order", "Commands for Ordering:"⟩,
   ⟨"bam", "Commands for BAM Processing:"⟩,
   ⟨"misc", "Commands for Miscellaneous:"⟩]

/-- Concrete node for claim C5: one registered group with no member, and
one available ungrouped child. -/
def nodeC5 : CmdNode :=
  ⟨[⟨"basic", "Commands for Basic Operation:"⟩],
   [⟨"stats", "simple statistics", "", false, false, true, false⟩]⟩

/-- Concrete child for claim C6: named `help`, available, tagged with a
group id that matches no registered group. -/
def helpChildC6 : ChildCmd :=
  ⟨"help", "Help about any command", "zzz", false, false, true, false⟩

/-- Concrete node for claim C6: one registered group holding one child,
plus `helpChildC6`. -/
def nodeC6 : CmdNode :=
  ⟨[⟨"basic", "Commands for Basic Operation:"⟩],
   [⟨"count", "count records", "basic", false, false, true, false⟩, helpChildC6]⟩

/-- Concrete child for claim C8: available, with a non-empty group id
matching no registered group. -/
def dangChild : ChildCmd :=
  ⟨"dangling", "orphaned child", "nope", false, false, true, false⟩

/-- Concrete node for claim C8: one registered group and the dangling
child. -/
def nodeC8 : CmdNode :=
  ⟨[⟨"basic", "Commands for Basic Operation:"⟩], [dangChild]⟩

/-- Concrete node for the witness of claim C6: no registered groups, a
hidden child named `help`, and one available child. -/
def nodeC6w : CmdNode :=
  ⟨[], [⟨"help", "Help about any command", "", true, false, false, false⟩,
        ⟨"stats", "simple statistics", "", false, false, true, false⟩]⟩

/-- The hidden `help` child of `nodeC6w`. -/
def helpChildC6w : ChildCmd := ⟨"help", "Help about any command", "", true, false, false, false⟩

/-- Concrete children for the witness of claim C7: one available child
in the `basic` group. -/
def cmdsC7w : List ChildCmd := [⟨"stats", "simple statistics", "basic", false, false, true, false⟩]

/-! ## Theorems -/

/-- C1: for every `hostCPUCount ≥ 1` and every non-empty `envValue` that
parses as a base-10 integer below 1, `resolveDefaultThreads` returns the
host CPU count unmodified, without re-applying the cap of 4. -/
theorem resolve_env_below_one_uncapped_host
    (hostCPUCount : Int) (envValue : String) (n : Int)
    (hcpu : 1 ≤ hostCPUCount) (hne : envValue ≠ "")
    (hparse : goAtoi envValue = some n) (hlt : n < 1) :
    resolveDefaultThreads hostCPUCount envValue = hostCPUCount := by
  simp only [resolveDefaultThreads, if_pos hne, hparse]
  exact if_pos hlt

/-- Witness for C1: `resolveDefaultThreads 8 "0" = 8`, not 4. -/
theorem resolve_env_below_one_uncapped_host_w : resolveDefaultThreads 8 "0" = 8 :=
  resolve_env_below_one_uncapped_host 8 "0" 0 (by decide) (by decide) (by decide) (by decide)

/-- C2: for every `hostCPUCount ≥ 1`, with an empty environment value
`resolveDefaultThreads` returns `min hostCPUCount 4`. -/
theorem resolve_empty_env_capped_min (hostCPUCount : Int) (hcpu : 1 ≤ hostCPUCount) :
    resolveDefaultThreads hostCPUCount "" = min hostCPUCount 4 := by
  simp only [resolveDefaultThreads, ne_eq, not_true_eq_false, if_false, ite_false, min_def]
  split_ifs <;> omega

/-- Witness for C2: `resolveDefaultThreads 8 "" = 4` and
`resolveDefaultThreads 2 "" = 2`. -/
theorem resolve_empty_env_capped_min_w :
    resolveDefaultThreads 8 "" = 4 ∧ resolveDefaultThreads 2 "" = 2 :=
  ⟨(resolve_empty_env_capped_min 8 (by decide)).trans (by decide),
   (resolve_empty_env_capped_min 2 (by decide)).trans (by decide)⟩

/-- C3: for every `hostCPUCount ≥ 1` and every non-empty `envValue` that
does not parse as a base-10 integer, `resolveDefaultThreads` returns the
same value as with an empty environment: the malformed override is
silently ignored. -/
theorem resolve_malformed_env_ignored (hostCPUCount : Int) (envValue : String)
    (hcpu : 1 ≤ hostCPUCount) (hne : envValue ≠ "") (hparse : goAtoi envValue = none) :
    resolveDefaultThreads hostCPUCount envValue = resolveDefaultThreads hostCPUCount "" := by
  simp only [resolveDefaultThreads, if_pos hne, hparse, ne_eq, not_true_eq_false, if_false,
    ite_false]

/-- Witness for C3: `resolveDefaultThreads 8 "abc"` equals the default
for an empty environment, namely 4. -/
theorem resolve_malformed_env_ignored_w :
    resolveDefaultThreads 8 "abc" = resolveDefaultThreads 8 "" ∧
    resolveDefaultThreads 8 "abc" = 4 :=
  ⟨resolve_malformed_env_ignored 8 "abc" (by decide) (by decide) (by decide),
   (resolve_malformed_env_ignored 8 "abc" (by decide) (by decide) (by decide)).trans (by decide)⟩

/-- C4: when `RootCmd.Execute()` returns an error, `Execute` prints the
error message to standard output (standard error stays empty) and
terminates with numeric exit value -1, observed as 255 after
unsigned-byte truncation; on success it prints nothing and the process
status is 0. -/
theorem execute_error_prints_stdout_exit255 (e : String) :
    Execute (.error e) = ⟨[e], [], -1⟩ ∧
    observedExitStatus (Execute (.error e)) = 255 ∧
    Execute (.ok ()) = ⟨[], [], 0⟩ ∧
    observedExitStatus (Execute (.ok ())) = 0 :=
  ⟨rfl, by norm_num [observedExitStatus, Execute], rfl, rfl⟩

/-- C5 counterexample: on a node with one registered but memberless
group and one available ungrouped child, the template renders a
memberless group section plus an `Additional Commands:` section, not the
flat `Available Commands:` listing the claim's condition requires. -/
theorem usage_flat_condition_cex :
    commandSections nodeC5 =
      [⟨"Commands for Basic Operation:", []⟩,
       ⟨"Additional Commands:", [⟨"stats", "simple statistics", "", false, false, true, false⟩]⟩] ∧
    commandSectionsClaimed nodeC5 =
      [⟨"Available Commands:", [⟨"stats", "simple statistics", "", false, false, true, false⟩]⟩] ∧
    commandSections nodeC5 ≠ commandSectionsClaimed nodeC5 := by
  decide

/-- C5 amended (only the flat condition changes): when rendering help
for a node with subcommands, if the node has no registered groups, all
listed children appear flatly under a single `Available Commands:`
heading; otherwise one subsection is emitted per registered group in
group-registration order (title = group title) containing exactly the
listed children tagged with that group, followed by a trailing
`Additional Commands:` subsection listing the listed children with no
group, emitted only if children with no group exist. -/
theorem usage_listing_sections_amended (n : CmdNode) :
    (n.HasAvailableSubCommands = false → commandSections n = []) ∧
    (n.HasAvailableSubCommands = true → n.Groups = [] →
      commandSections n = [flatSection n]) ∧
    (n.HasAvailableSubCommands = true → n.Groups ≠ [] →
      commandSections n = n.Groups.map (groupSection n) ∨
      (commandSections n = n.Groups.map (groupSection n) ++ [additionalSection n] ∧
       ∃ c ∈ n.Commands, c.GroupID = "")) := by
  refine ⟨?_, ?_, ?_⟩
  · intro hfalse
    unfold commandSections
    rw [if_neg (by simp [hfalse])]
  · intro havail hempty
    unfold commandSections
    rw [if_pos havail, if_pos (by rw [hempty]; rfl)]
  · intro havail hne
    have hlen : ¬((n.Groups.length == 0) = true) := fun hc => hne (by simpa using hc)
    unfold commandSections
    rw [if_pos havail, if_neg hlen]
    cases hall : n.AllChildCommandsHaveGroup with
    | true => left; simp
    | false =>
      right
      constructor
      · simp
      · have h := hall
        unfold CmdNode.AllChildCommandsHaveGroup at h
        rw [List.all_eq_false] at h
        obtain ⟨c, hc, hp⟩ := h
        refine ⟨c, hc, ?_⟩
        simp only [Bool.not_eq_true, Bool.not_eq_false', Bool.and_eq_true, beq_iff_eq] at hp
        exact hp.2

/-- Witness for C5 amended: the groupless node `nodeC6w` renders the
flat section, and `nodeC5` (registered group present) renders its group
sections with a trailing `Additional Commands:` section whose emission
is accompanied by an ungrouped child. -/
theorem usage_listing_sections_amended_w :
    commandSections nodeC6w = [flatSection nodeC6w] ∧
    (commandSections nodeC5 = nodeC5.Groups.map (groupSection nodeC5) ∨
     (commandSections nodeC5 =
        nodeC5.Groups.map (groupSection nodeC5) ++ [additionalSection nodeC5] ∧
      ∃ c ∈ nodeC5.Commands, c.GroupID = "")) :=
  ⟨(usage_listing_sections_amended nodeC6w).2.1 (by decide) rfl,
   (usage_listing_sections_amended nodeC5).2.2 (by decide) (by decide)⟩

/-- C6 counterexample: a child named `help`, present among the children
and tagged with a group id matching no registered group, is listed in no
section of the rendered help — `help` is not unconditionally included. -/
theorem help_not_always_listed_cex :
    helpChildC6 ∈ nodeC6.Commands ∧ helpChildC6.Name = "help" ∧
    ∀ s ∈ commandSections nodeC6, helpChildC6 ∉ s.entries := by
  decide

/-- C6 amended: every listed entry is an available command or named
`help` (hidden or unavailable children are excluded unless named
`help`); a child named `help` bypasses only that availability filter —
it is listed in the flat listing when no groups are registered, and in a
grouped listing it is listed in the section of the registered group its
group id matches. -/
theorem help_filter_amended (n : CmdNode) :
    (∀ s ∈ commandSections n, ∀ c ∈ s.entries,
        c.IsAvailableCommand = true ∨ c.Name = "help") ∧
    (∀ c ∈ n.Commands, c.Name = "help" → n.HasAvailableSubCommands = true →
      (n.Groups = [] →
        flatSection n ∈ commandSections n ∧ c ∈ (flatSection n).entries) ∧
      (∀ g ∈ n.Groups, c.GroupID = g.ID →
        groupSection n g ∈ commandSections n ∧ c ∈ (groupSection n g).entries)) := by
  constructor
  · intro s hs c hc
    unfold commandSections at hs
    split at hs
    · split at hs
      · simp only [List.mem_singleton] at hs
        subst hs
        have h := (List.mem_filter.mp hc).2
        simp only [listedInSection, Bool.or_eq_true, beq_iff_eq] at h
        exact h
      · rw [List.mem_append] at hs
        rcases hs with hs | hs
        · obtain ⟨g, hg, rfl⟩ := List.mem_map.mp hs
          have h := (List.mem_filter.mp hc).2
          simp only [listedInSection, Bool.and_eq_true, Bool.or_eq_true, beq_iff_eq] at h
          exact h.2
        · split at hs
          · simp only [List.mem_singleton] at hs
            subst hs
            have h := (List.mem_filter.mp hc).2
            simp only [listedInSection, Bool.and_eq_true, Bool.or_eq_true, beq_iff_eq] at h
            exact h.2
          · simp at hs
    · simp at hs
  · intro c hc hname havail
    have hlisted : listedInSection c = true := by
      simp [listedInSection, hname]
    constructor
    · intro hempty
      refine ⟨?_, List.mem_filter.mpr ⟨hc, hlisted⟩⟩
      unfold commandSections
      rw [if_pos havail, if_pos (by rw [hempty]; rfl)]
      exact List.mem_singleton.mpr rfl
    · intro g hg hgid
      refine ⟨?_, List.mem_filter.mpr ⟨hc, by simp [hgid, hlisted]⟩⟩
      unfold commandSections
      rw [if_pos havail]
      have hfalse : ¬((n.Groups.length == 0) = true) := by
        cases hgl : n.Groups with
        | nil => rw [hgl] at hg; simp at hg
        | cons a l => simp
      rw [if_neg hfalse]
      exact List.mem_append_left _ (List.mem_map.mpr ⟨g, hg, rfl⟩)

/-- Witness for C6 amended: on a concrete groupless node, a hidden child
named `help` is listed in the flat section, and every listed entry of
that section is available or named `help`. -/
theorem help_filter_amended_w :
    (helpChildC6w.IsAvailableCommand = true ∨ helpChildC6w.Name = "help") ∧
    flatSection nodeC6w ∈ commandSections nodeC6w ∧
    helpChildC6w ∈ (flatSection nodeC6w).entries :=
  ⟨(help_filter_amended nodeC6w).1 (flatSection nodeC6w) (by decide) helpChildC6w (by decide),
   ((help_filter_amended nodeC6w).2 helpChildC6w (by decide) rfl (by decide)).1 rfl⟩

/-- C7: the root registers exactly eight groups, with identifiers
`basic`, `format`, `search`, `set`, `edit`, `order`, `bam`, `misc` in
registration order, and a grouped help rendering emits the eight group
sections in exactly that order. -/
theorem root_groups_eight_ordered :
    rootGroups.length = 8 ∧
    rootGroups.map Group.ID =
      ["basic", "format", "search", "set", "edit", "order", "bam", "misc"] ∧
    ∀ cmds : List ChildCmd,
      CmdNode.HasAvailableSubCommands ⟨rootGroups, cmds⟩ = true →
      ((commandSections ⟨rootGroups, cmds⟩).map HelpSection.title).take 8 =
        rootGroups.map Group.Title := by
  refine ⟨rfl, rfl, ?_⟩
  intro cmds havail
  unfold commandSections
  rw [if_pos havail, if_neg (show ¬((rootGroups.length == 0) = true) by decide)]
  rfl

/-- Witness for C7: with one available child in the `basic` group, the
first eight section titles are the eight registered group titles in
registration order. -/
theorem root_groups_eight_ordered_w :
    ((commandSections ⟨rootGroups, cmdsC7w⟩).map HelpSection.title).take 8 =
      rootGroups.map Group.Title :=
  root_groups_eight_ordered.2.2 cmdsC7w (by decide)

/-- C8 counterexample: an available child whose non-empty group id
matches no registered group is not rendered under `Additional
Commands:` — no such section is emitted at all and the child appears in
no section. -/
theorem dangling_group_cex :
    dangChild ∈ nodeC8.Commands ∧ dangChild.GroupID ≠ "" ∧
    (∀ g ∈ nodeC8.Groups, g.ID ≠ dangChild.GroupID) ∧
    (∀ s ∈ commandSections nodeC8, s.title ≠ "Additional Commands:") ∧
    (∀ s ∈ commandSections nodeC8, dangChild ∉ s.entries) := by
  decide

/-- C8 amended: in the help of a node with registered groups, a child
whose non-empty group id matches no registered group is rendered under
no section at all — it is omitted from the listing, not shown under
`Additional Commands:`. -/
theorem dangling_group_omitted (n : CmdNode) (c : ChildCmd)
    (hgne : c.GroupID ≠ "")
    (hnomatch : ∀ g ∈ n.Groups, g.ID ≠ c.GroupID)
    (hgroups : n.Groups ≠ []) :
    ∀ s ∈ commandSections n, c ∉ s.entries := by
  intro s hs hmem
  unfold commandSections at hs
  split at hs
  · split at hs
    · rename_i hcond
      have hnil : n.Groups = [] := by simpa using hcond
      exact hgroups hnil
    · rw [List.mem_append] at hs
      rcases hs with hs | hs
      · obtain ⟨g, hg, rfl⟩ := List.mem_map.mp hs
        have h := (List.mem_filter.mp hmem).2
        simp only [Bool.and_eq_true, beq_iff_eq] at h
        exact hnomatch g hg h.1.symm
      · split at hs
        · simp only [List.mem_singleton] at hs
          subst hs
          have h := (List.mem_filter.mp hmem).2
          simp only [Bool.and_eq_true, beq_iff_eq] at h
          exact hgne h.1
        · simp at hs
  · simp at hs

/-- Witness for C8 amended: the dangling child of `nodeC8` is not among
the entries of the one section its parent's help emits. -/
theorem dangling_group_omitted_w :
    dangChild ∉ (HelpSection.mk "Commands for Basic Operation:" []).entries :=
  dangling_group_omitted nodeC8 dangChild (by decide) (by decide) (by decide)
    ⟨"Commands for Basic Operation:", []⟩ (by decide)

/-- C9: for every `hostCPUCount ≥ 1` and every environment value
whatsoever, the resolved default thread count is at least 1. -/
theorem resolve_threads_positive (hostCPUCount : Int) (envValue : String)
    (hcpu : 1 ≤ hostCPUCount) : 1 ≤ resolveDefaultThreads hostCPUCount envValue := by
  simp only [resolveDefaultThreads]
  rcases eq_or_ne envValue "" with he | he
  · simp only [he, ne_eq, not_true_eq_false, if_false, ite_false]
    split_ifs <;> omega
  · simp only [if_pos he]
    cases hgo : goAtoi envValue <;> simp only [hgo] <;> split_ifs <;> omega

/-- Witness for C9: a malformed override on a 3-CPU host still yields a
value of at least 1. -/
theorem resolve_threads_positive_w : 1 ≤ resolveDefaultThreads 3 "zzz" :=
  resolve_threads_positive 3 "zzz" (by decide)

/-- C10: for every `hostCPUCount ≥ 1` and every environment value that
parses as an integer `n ≥ 1`, the resolver returns exactly `n`, with no
upper bound of any kind applied. -/
theorem resolve_env_override_exact (hostCPUCount : Int) (envValue : String) (n : Int)
    (hcpu : 1 ≤ hostCPUCount) (hparse : goAtoi envValue = some n) (hn : 1 ≤ n) :
    resolveDefaultThreads hostCPUCount envValue = n := by
  have hne : envValue ≠ "" := by
    intro he
    rw [he] at hparse
    exact Option.noConfusion hparse
  simp only [resolveDefaultThreads, if_pos hne, hparse]
  exact if_neg (by omega)

/-- Witness for C10: `resolveDefaultThreads 8 "6" = 6` and
`resolveDefaultThreads 2 "999" = 999`. -/
theorem resolve_env_override_exact_w :
    resolveDefaultThreads 8 "6" = 6 ∧ resolveDefaultThreads 2 "999" = 999 :=
  ⟨resolve_env_override_exact 8 "6" 6 (by decide) (by decide) (by decide),
   resolve_env_override_exact 2 "999" 999 (by decide) (by decide) (by decide)⟩

end SeqkitRoot
